import Mathlib

/-!
Shallow embedding of the connection core of the `nats.rs` client
(`src/outbound.rs`, `src/inbound.rs`): the four-state writer lifecycle with
its disconnect spill buffer, the `Outbound` protocol operations, the pending
pong queue, and the reconnect loop.  Bytes are natural numbers (`u8` values),
buffered sockets are modelled by the list of bytes buffered and the list of
bytes already flushed to the kernel, and the `inject_io_failure` test hook is
an oracle: a list of booleans consumed one per call site.
-/

deriving instance DecidableEq for Except

namespace Nats

/-- A byte, the value of a Rust `u8`. -/
abbrev Byte := Nat

/-- `DisconnectWriter { buf: Box<[u8]>, len: usize }`: the fixed-size spill
buffer (`buf` keeps its allocated length) and the count of meaningful bytes. -/
structure DisconnectWriter where
  buf : List Byte
  len : Nat
deriving DecidableEq

/-- `DisconnectWriter::new(buf_sz)`: a zeroed buffer of `buf_sz` bytes, `len = 0`. -/
def DisconnectWriter.new (buf_sz : Nat) : DisconnectWriter :=
  { buf := List.replicate buf_sz 0, len := 0 }

/-- A live buffered socket (`BufWriter<TcpStream>` or `BufWriter<TlsWriter>`):
`wbuf` is the `BufWriter` in-memory buffer (modelled as unbounded, so a write
never spills through to the kernel on its own), `sent` the bytes already handed
to the kernel by `flush`, `isShutdown` whether `shutdown` completed, and
`faults` the `inject_io_failure` oracle (head consumed per call; an exhausted
oracle injects no failure). -/
structure LiveStream where
  faults : List Bool
  wbuf : List Byte
  sent : List Byte
  isShutdown : Bool
deriving DecidableEq

/-- One `inject_io_failure()` call: consume the next oracle entry. -/
def LiveStream.injectFailure (s : LiveStream) : Bool × LiveStream :=
  match s.faults with
  | [] => (false, s)
  | f :: rest => (f, { s with faults := rest })

/-- The error kinds the embedded code distinguishes (`io::ErrorKind`). -/
inductive IoErrorKind where
  | other
  | notConnected
deriving DecidableEq

/-- An `io::Error`: a kind plus its message. -/
structure IoError where
  kind : IoErrorKind
  msg : String
deriving DecidableEq

def bufferFullError : IoError :=
  ⟨IoErrorKind.other, "the disconnection buffer is full"⟩

def closedError : IoError :=
  ⟨IoErrorKind.other, "the connection is permanently closed"⟩

def notConnectedError : IoError :=
  ⟨IoErrorKind.notConnected, "The client is not currently connected to a server"⟩

/-- The error produced by a triggered `inject_io_failure()`. -/
def injectedError : IoError :=
  ⟨IoErrorKind.other, "injected failure"⟩

/-- `enum Writer { Tcp(..), Tls(..), Disconnected(..), Closed }`. -/
inductive Writer where
  | Tcp (bw : LiveStream)
  | Tls (bw : LiveStream)
  | Disconnected (db : DisconnectWriter)
  | Closed
deriving DecidableEq

/-- `impl Write for Writer — fn write` (outbound.rs 35-62).  Live branches run
`inject_io_failure` then append to the `BufWriter` buffer; the Disconnected
branch copies into `buf[len .. len+n]` and bumps `len`, or fails with
"buffer full" when `len + n > buf.len()`; Closed always fails. -/
def Writer.write (w : Writer) (data : List Byte) : Except IoError Nat × Writer :=
  match w with
  | .Tcp bw =>
    match bw.injectFailure with
    | (true, bw') => (.error injectedError, .Tcp bw')
    | (false, bw') => (.ok data.length, .Tcp { bw' with wbuf := bw'.wbuf ++ data })
  | .Tls bw =>
    match bw.injectFailure with
    | (true, bw') => (.error injectedError, .Tls bw')
    | (false, bw') => (.ok data.length, .Tls { bw' with wbuf := bw'.wbuf ++ data })
  | .Disconnected db =>
    if db.buf.length < db.len + data.length then
      (.error bufferFullError, .Disconnected db)
    else
      (.ok data.length,
       .Disconnected
         { buf := db.buf.take db.len ++ data ++ db.buf.drop (db.len + data.length),
           len := db.len + data.length })
  | .Closed => (.error closedError, .Closed)

/-- `impl Write for Writer — fn flush` (outbound.rs 64-80): live branches run
`inject_io_failure` then drain the `BufWriter` buffer to the kernel;
Disconnected is a no-op; Closed fails. -/
def Writer.flush (w : Writer) : Except IoError Unit × Writer :=
  match w with
  | .Tcp bw =>
    match bw.injectFailure with
    | (true, bw') => (.error injectedError, .Tcp bw')
    | (false, bw') => (.ok (), .Tcp { bw' with wbuf := [], sent := bw'.sent ++ bw'.wbuf })
  | .Tls bw =>
    match bw.injectFailure with
    | (true, bw') => (.error injectedError, .Tls bw')
    | (false, bw') => (.ok (), .Tls { bw' with wbuf := [], sent := bw'.sent ++ bw'.wbuf })
  | .Disconnected db => (.ok (), .Disconnected db)
  | .Closed => (.error closedError, .Closed)

/-- `write_all`: our `write` either accepts the whole slice or errors, so
`write_all` is `write` with the byte count dropped. -/
def Writer.write_all (w : Writer) (data : List Byte) : Except IoError Unit × Writer :=
  match w.write data with
  | (.ok _, w') => (.ok (), w')
  | (.error e, w') => (.error e, w')

/-- `Writer::transition_to_disconnected` (outbound.rs 84-91): a no-op on
Disconnected and Closed, otherwise install a fresh spill buffer. -/
def Writer.transition_to_disconnected (w : Writer) (reconnect_buffer_size : Nat) : Writer :=
  match w with
  | .Disconnected db => .Disconnected db
  | .Closed => .Closed
  | _ => .Disconnected (DisconnectWriter.new reconnect_buffer_size)

/-- `Writer::shutdown` (outbound.rs 102-119): live branches run
`inject_io_failure`, flush the `BufWriter`, run `inject_io_failure` again and
shut the socket down; Disconnected and Closed succeed without action. -/
def Writer.shutdown (w : Writer) : Except IoError Unit × Writer :=
  match w with
  | .Tcp bw =>
    match bw.injectFailure with
    | (true, bw₁) => (.error injectedError, .Tcp bw₁)
    | (false, bw₁) =>
      let bw₂ : LiveStream := { bw₁ with wbuf := [], sent := bw₁.sent ++ bw₁.wbuf }
      match bw₂.injectFailure with
      | (true, bw₃) => (.error injectedError, .Tcp bw₃)
      | (false, bw₃) => (.ok (), .Tcp { bw₃ with isShutdown := true })
  | .Tls bw =>
    match bw.injectFailure with
    | (true, bw₁) => (.error injectedError, .Tls bw₁)
    | (false, bw₁) =>
      let bw₂ : LiveStream := { bw₁ with wbuf := [], sent := bw₁.sent ++ bw₁.wbuf }
      match bw₂.injectFailure with
      | (true, bw₃) => (.error injectedError, .Tls bw₃)
      | (false, bw₃) => (.ok (), .Tls { bw₃ with isShutdown := true })
  | .Disconnected db => (.ok (), .Disconnected db)
  | .Closed => (.ok (), .Closed)

/-- `Writer::is_disconnected` (outbound.rs 121-127). -/
def Writer.is_disconnected : Writer → Bool
  | .Disconnected _ => true
  | _ => false

/-- `Writer::is_closed` (outbound.rs 129-135). -/
def Writer.is_closed : Writer → Bool
  | .Closed => true
  | _ => false

/-- `Writer::flusher_should_wait` (outbound.rs 93-100). -/
def Writer.flusher_should_wait : Writer → Bool
  | .Tcp bw => bw.wbuf.isEmpty
  | .Tls bw => bw.wbuf.isEmpty
  | .Disconnected _ => true
  | .Closed => false

/-- `Outbound::close` (outbound.rs 185-203): early-return when already Closed,
otherwise best-effort `shutdown` (its result only logged, its state overwritten)
and install `Closed`.  The condvar broadcast has no effect on writer state. -/
def Outbound.close (w : Writer) : Writer :=
  if w.is_closed then w else Writer.Closed

/-- `Outbound::transition_to_disconnected` (outbound.rs 179-183). -/
def Outbound.transition_to_disconnected (reconnect_buffer_size : Nat) (w : Writer) : Writer :=
  w.transition_to_disconnected reconnect_buffer_size

/-- The replay inside `Outbound::replace_writer` (outbound.rs 213-215):
`new_writer.write_all(&db.buf[..db.len]).and_then(|()| new_writer.flush())`. -/
def replaySpill (new_writer : Writer) (db : DisconnectWriter) :
    Except IoError Unit × Writer :=
  match new_writer.write_all (db.buf.take db.len) with
  | (.error e, nw') => (.error e, nw')
  | (.ok (), nw') => nw'.flush

/-- `Outbound::replace_writer(new_writer)` (outbound.rs 209-233).  When the
current writer is Disconnected the spill buffer is replayed into `new_writer`;
a replay error shuts `new_writer` down (best effort) and propagates, leaving
the current writer in place; otherwise `new_writer` is installed
unconditionally.  Rust drops one writer at the end (the rejected `new_writer`
on error, the previous writer on success); the model returns that dropped
writer as the third component so theorems can inspect it. -/
def Outbound.replace_writer (w new_writer : Writer) :
    Except IoError Unit × Writer × Writer :=
  match w with
  | .Disconnected db =>
    match replaySpill new_writer db with
    | (.error e, nw') => (.error e, .Disconnected db, (nw'.shutdown).2)
    | (.ok (), nw') => (.ok (), nw', .Disconnected db)
  | _ => (.ok (), new_writer, w)

/-- `Outbound::with_writer(f)` (outbound.rs 235-251): run the closure on the
locked writer; on error shut the socket down (best effort, result discarded)
and transition to Disconnected.  The closure result carries a Bool recording
whether it called `updated.notify_all()` (flusher notification). -/
def Outbound.with_writer (reconnect_buffer_size : Nat) (w : Writer)
    (f : Writer → Except IoError Unit × Writer × Bool) :
    Except IoError Unit × Writer × Bool :=
  match f w with
  | (.ok (), w', n) => (.ok (), w', n)
  | (.error e, w', n) =>
    (.error e,
     Writer.transition_to_disconnected ((w'.shutdown).2) reconnect_buffer_size, n)

/-- The bytes of an ASCII string (the UTF-8 code units of the frames the
client emits are exactly the character code points here). -/
def strBytes (s : String) : List Byte := s.data.map Char.toNat

/-- `Outbound::send_ping` (outbound.rs 260-275): fail with `NotConnected`
against a Disconnected writer, otherwise write `PING\r\n` and flush in place.
No flusher notification. -/
def Outbound.send_ping (reconnect_buffer_size : Nat) (w : Writer) :
    Except IoError Unit × Writer × Bool :=
  Outbound.with_writer reconnect_buffer_size w (fun wr =>
    if wr.is_disconnected then
      (.error notConnectedError, wr, false)
    else
      match wr.write_all (strBytes "PING\r\n") with
      | (.error e, wr') => (.error e, wr', false)
      | (.ok (), wr') =>
        match wr'.flush with
        | (r, wr'') => (r, wr'', false))

/-- `Outbound::send_pong` (outbound.rs 277-287): silently succeed when
Disconnected, otherwise write `PONG\r\n` and flush in place. -/
def Outbound.send_pong (reconnect_buffer_size : Nat) (w : Writer) :
    Except IoError Unit × Writer × Bool :=
  Outbound.with_writer reconnect_buffer_size w (fun wr =>
    if wr.is_disconnected then
      (.ok (), wr, false)
    else
      match wr.write_all (strBytes "PONG\r\n") with
      | (.error e, wr') => (.error e, wr', false)
      | (.ok (), wr') =>
        match wr'.flush with
        | (r, wr'') => (r, wr'', false))

/-- The rendered `write!(writer, "PUB ...")` header of `send_pub_msg`
(outbound.rs 296-300): `PUB <subj> <reply> <len>\r\n` when a reply subject is
given, `PUB <subj> <len>\r\n` otherwise, `<len>` in ASCII decimal. -/
def pubHeader (subj : String) (reply : Option String) (payloadLen : Nat) : List Byte :=
  match reply with
  | some r => strBytes ("PUB " ++ subj ++ " " ++ r ++ " " ++ toString payloadLen ++ "\r\n")
  | none => strBytes ("PUB " ++ subj ++ " " ++ toString payloadLen ++ "\r\n")

/-- `Outbound::send_pub_msg(subj, reply, msgb)` (outbound.rs 289-306): write
the header, the payload and the trailing CRLF, then `updated.notify_all()`
(the Bool); no in-place flush.  The formatted header is modelled as a single
`write_all` of its rendered bytes. -/
def Outbound.send_pub_msg (reconnect_buffer_size : Nat) (w : Writer)
    (subj : String) (reply : Option String) (msgb : List Byte) :
    Except IoError Unit × Writer × Bool :=
  Outbound.with_writer reconnect_buffer_size w (fun wr =>
    match wr.write_all (pubHeader subj reply msgb.length) with
    | (.error e, w₁) => (.error e, w₁, false)
    | (.ok (), w₁) =>
      match w₁.write_all msgb with
      | (.error e, w₂) => (.error e, w₂, false)
      | (.ok (), w₂) =>
        match w₂.write_all (strBytes "\r\n") with
        | (.error e, w₃) => (.error e, w₃, false)
        | (.ok (), w₃) => (.ok (), w₃, true))

/-! ## Sequences of writer operations (used to state the spill-replay claim) -/

/-- Apply a sequence of writes, keeping only the writer state. -/
def writeSeq (w : Writer) (ws : List (List Byte)) : Writer :=
  ws.foldl (fun acc d => (Writer.write acc d).2) w

/-- Whether every write in the sequence is accepted (returns `Ok`). -/
def writeSeqOk (w : Writer) : List (List Byte) → Bool
  | [] => true
  | d :: rest =>
    match Writer.write w d with
    | (.ok _, w') => writeSeqOk w' rest
    | (.error _, _) => false

/-- A writer operation issued after `replace_writer` returns. -/
inductive WOp where
  | write (d : List Byte)
  | flush

/-- Apply a sequence of later writer operations. -/
def applyOps (w : Writer) : List WOp → Writer
  | [] => w
  | WOp.write d :: rest => applyOps (Writer.write w d).2 rest
  | WOp.flush :: rest => applyOps (Writer.flush w).2 rest

/-- The bytes a writer has delivered to its socket so far. -/
def Writer.sentBytes : Writer → List Byte
  | .Tcp bw => bw.sent
  | .Tls bw => bw.sent
  | .Disconnected _ => []
  | .Closed => []

/-! ## Pending pongs (`SharedState.pongs`, drained by `Inbound::reconnect`) -/

/-- A `PendingPong`: the sending half of a single-shot boolean channel.  `id`
identifies the waiting `flush` call, `receiverAlive` whether the application
still holds the receiving half. -/
structure PendingPong where
  id : Nat
  receiverAlive : Bool
deriving DecidableEq

/-- `s.send(b)`: deliver `(id, b)` when the receiver still exists, err
otherwise.  The callers `unwrap` the result, so `none` here propagates as a
thread panic in the model of each caller. -/
def PendingPong.signal (p : PendingPong) (b : Bool) : Option (Nat × Bool) :=
  if p.receiverAlive then some (p.id, b) else none

/-- The drain step of `Inbound::reconnect` (inbound.rs 104-107):
`while let Some(s) = pongs.pop_front() { s.send(false).unwrap() }`.
Yields the signals emitted, in queue order, and the queue left behind;
`none` models the `unwrap` panic on a dropped receiver. -/
def drainPongs : List PendingPong → Option (List (Nat × Bool) × List PendingPong)
  | [] => some ([], [])
  | p :: rest =>
    match p.signal false with
    | none => none
    | some sig =>
      match drainPongs rest with
      | none => none
      | some (sigs, q) => some (sig :: sigs, q)

/-- `Inbound::process_pong` (inbound.rs 221-227): pop the head of the queue if
any and signal `true`; an empty queue is tolerated.  `none` models the
`unwrap` panic on a dropped receiver. -/
def process_pong : List PendingPong → Option (Option (Nat × Bool) × List PendingPong)
  | [] => some (none, [])
  | p :: rest =>
    match p.signal true with
    | none => none
    | some sig => some (some sig, rest)

/-! ## The reconnect loop (`Inbound::reconnect`, inbound.rs 129-203) -/

/-- A `Server` as the reconnect loop sees it: host/port/auth are opaque to the
loop, only an identity and the wrapping `reconnects : u32` counter matter. -/
structure Server where
  id : Nat
  reconnects : Nat
deriving DecidableEq

/-- `2^32`, the modulus of the `u32` counter. -/
def u32Size : Nat := 4294967296

/-- `server.reconnects.overflowing_add(1).0`: wrapping increment. -/
def wrapInc (r : Nat) : Nat := (r + 1) % u32Size

/-- Increment (wrapping) the `reconnects` counter of the server at index `i`. -/
def bumpAt (servers : List Server) (i : Nat) : List Server :=
  servers.mapIdx (fun j s =>
    if j = i then { s with reconnects := wrapInc s.reconnects } else s)

/-- How one connection attempt against a candidate ends: `try_connect` fails,
`replace_writer` fails, `resend_subs` fails, or the whole attempt succeeds.
These four outcomes are the external events the Rust loop branches on. -/
inductive AttemptOutcome where
  | dialFail
  | replaceFail
  | resendFail
  | success
deriving DecidableEq

/-- One pass of the `for server in servers` candidate loop (inbound.rs
154-186).  `order` is the shuffled list of candidate indices into `servers`;
`k` numbers the connection attempts globally and `outcome k` tells how the
k-th attempt ends.  A failed dial or a failed `replace_writer` bumps the
candidate's counter (lines 162, 184); a failed `resend_subs` only logs and
moves on (lines 167-177); a success breaks out.  Returns the updated servers,
the next attempt number, and whether a candidate succeeded. -/
def runPass (outcome : Nat → AttemptOutcome) :
    List Nat → List Server → Nat → List Server × Nat × Bool
  | [], servers, k => (servers, k, false)
  | i :: rest, servers, k =>
    match outcome k with
    | .success => (servers, k + 1, true)
    | .resendFail => runPass outcome rest servers (k + 1)
    | .dialFail => runPass outcome rest (bumpAt servers i) (k + 1)
    | .replaceFail => runPass outcome rest (bumpAt servers i) (k + 1)

/-- The candidate construction (inbound.rs 137-148): the indices of
`configured_servers ++ learned_servers` whose server passes the
`reconnects < max` filter; no index is filtered out when `max_reconnects`
is `None`. -/
def candFilter (maxR : Option Nat) (servers : List Server) : List Nat :=
  (List.range servers.length).filter (fun i =>
    match maxR, servers.get? i with
    | some m, some s => decide (s.reconnects < m)
    | some _, none => false
    | none, _ => true)

/-- The environment of the reconnect loop: the `shutting_down` flag as read at
the top of each outer iteration, the shuffle applied to each pass's candidate
list, and the outcome of each connection attempt. -/
structure ReconnectEnv where
  shuttingDown : Nat → Bool
  shuffle : Nat → List Nat → List Nat
  outcome : Nat → AttemptOutcome

/-- The `'outer: loop` of `Inbound::reconnect` (inbound.rs 129-203) over the
combined server list, with `fuel` bounding how many iterations the model
unrolls (the Rust loop is unbounded; `none` means the fuel ran out with the
loop still running).  Each iteration: return failure if `shutting_down` is
set; build and shuffle the candidate list; run the candidate pass; on success
reset every counter to zero (lines 205-211) and return success; otherwise
return failure when no candidate was attempted and `max_reconnects` is
bounded (lines 191-202), else loop.  The learned-server replacement from the
new INFO (line 179) only matters after a success and is not modelled. -/
def reconnectLoop (maxR : Option Nat) (env : ReconnectEnv) :
    Nat → List Server → Nat → Nat → Option (Bool × List Server)
  | 0, _, _, _ => none
  | fuel + 1, servers, k, iter =>
    if env.shuttingDown iter then some (false, servers)
    else
      let cands := env.shuffle iter (candFilter maxR servers)
      match runPass env.outcome cands servers k with
      | (servers', _, true) =>
        some (true, servers'.map (fun s => { s with reconnects := 0 }))
      | (servers', k', false) =>
        if cands.isEmpty && maxR.isSome then some (false, servers')
        else reconnectLoop maxR env fuel servers' k' (iter + 1)

/-! ## Theorems -/

/-- C1 (counterexample): `replace_writer` does leave the Closed state.  With
the writer Closed, replacing it with a fresh Disconnected writer installs the
new writer, so the writer after the call is no longer Closed. -/
theorem closed_replace_writer_cex :
    (Outbound.replace_writer Writer.Closed
      (Writer.Disconnected (DisconnectWriter.new 1))).2.1 ≠ Writer.Closed := by
  decide

/-- C1 (amended): the Closed writer state is absorbing under `write`, `flush`,
`shutdown`, `transition_to_disconnected` and `close`; `replace_writer`,
however, installs the new writer unconditionally (the spill replay is skipped
since Closed is not Disconnected), so it can leave Closed. -/
theorem closed_absorbing_except_replace (data : List Byte) (rbs : Nat) (nw : Writer) :
    (Writer.write Writer.Closed data).2 = Writer.Closed
    ∧ (Writer.flush Writer.Closed).2 = Writer.Closed
    ∧ (Writer.shutdown Writer.Closed).2 = Writer.Closed
    ∧ Writer.transition_to_disconnected Writer.Closed rbs = Writer.Closed
    ∧ Outbound.close Writer.Closed = Writer.Closed
    ∧ Outbound.replace_writer Writer.Closed nw = (Except.ok (), nw, Writer.Closed) :=
  ⟨rfl, rfl, rfl, rfl, rfl, rfl⟩

/-- C2 (counterexample): a candidate whose attempt fails at `resend_subs`
keeps its `reconnects` counter.  With a single candidate at counter 5 whose
attempt fails at `resend_subs`, the pass ends with the counter still at 5,
although the claim would require the wrapping increment (which is 6 ≠ 5). -/
theorem resend_fail_no_increment_cex :
    (runPass (fun _ => AttemptOutcome.resendFail) [0] [⟨0, 5⟩] 0).1 = [⟨0, 5⟩]
    ∧ wrapInc 5 ≠ 5 := by
  decide

/-- C2 (amended): in each pass of the reconnect loop, a failed dial and a
failed `replace_writer` increment the attempted server's `reconnects` by one
with wrapping addition before the next candidate is tried, while a failed
`resend_subs` moves on to the next candidate leaving every counter unchanged;
the increment (`bumpAt`) touches exactly the attempted server. -/
theorem attempt_increment_amended (outcome : Nat → AttemptOutcome) (i : Nat)
    (rest : List Nat) (servers : List Server) (k : Nat) :
    (outcome k = AttemptOutcome.dialFail →
      runPass outcome (i :: rest) servers k
        = runPass outcome rest (bumpAt servers i) (k + 1))
    ∧ (outcome k = AttemptOutcome.replaceFail →
      runPass outcome (i :: rest) servers k
        = runPass outcome rest (bumpAt servers i) (k + 1))
    ∧ (outcome k = AttemptOutcome.resendFail →
      runPass outcome (i :: rest) servers k
        = runPass outcome rest servers (k + 1))
    ∧ (∀ j, (bumpAt servers i)[j]? =
        if j = i then
          (servers[j]?).map (fun s => { s with reconnects := wrapInc s.reconnects })
        else servers[j]?) := by
  refine ⟨?_, ?_, ?_, ?_⟩
  · intro h; simp [runPass, h]
  · intro h; simp [runPass, h]
  · intro h; simp [runPass, h]
  · intro j
    by_cases hj : j = i <;> simp [bumpAt, hj]

/-- C2 (amended) witness: one dial failure, applied at a concrete pass. -/
theorem attempt_increment_amended_wit :
    runPass (fun _ => AttemptOutcome.dialFail) [0] [⟨0, 0⟩] 0
      = runPass (fun _ => AttemptOutcome.dialFail) [] (bumpAt [⟨0, 0⟩] 0) 1 :=
  (attempt_increment_amended (fun _ => AttemptOutcome.dialFail) 0 [] [⟨0, 0⟩] 0).1 rfl

/-- C3: writing `n` bytes to a Disconnected writer with capacity `c` holding
`l` bytes succeeds exactly when `l + n ≤ c`, in which case it returns `n`,
appends the bytes after the existing `l` bytes, sets the length to `l + n`
and keeps the buffer allocation size; when `l + n > c` it fails with the
"buffer full" error and leaves buffer and length unchanged. -/
theorem disconnected_write_spec (db : DisconnectWriter) (data : List Byte)
    (hlen : db.len ≤ db.buf.length) :
    (db.len + data.length ≤ db.buf.length →
      Writer.write (Writer.Disconnected db) data =
        (Except.ok data.length, Writer.Disconnected
          { buf := db.buf.take db.len ++ data ++ db.buf.drop (db.len + data.length),
            len := db.len + data.length })
      ∧ (db.buf.take db.len ++ data ++ db.buf.drop (db.len + data.length)).take
            (db.len + data.length) = db.buf.take db.len ++ data
      ∧ (db.buf.take db.len ++ data ++ db.buf.drop (db.len + data.length)).length
            = db.buf.length)
    ∧ (db.buf.length < db.len + data.length →
      Writer.write (Writer.Disconnected db) data
        = (Except.error bufferFullError, Writer.Disconnected db)) := by
  constructor
  · intro hfit
    refine ⟨?_, ?_, ?_⟩
    · simp only [Writer.write]
      rw [if_neg (by omega)]
    · exact List.take_left' (by simp [Nat.min_eq_left hlen])
    · simp only [List.length_append, List.length_take, List.length_drop]
      omega
  · intro hover
    simp only [Writer.write]
    rw [if_pos (by omega)]

/-- C3 witness: appending one byte into a half-full four-byte spill buffer. -/
theorem disconnected_write_spec_wit :
    Writer.write (Writer.Disconnected ⟨[7, 8, 0, 0], 2⟩) [9]
      = (Except.ok 1, Writer.Disconnected ⟨[7, 8, 9, 0], 3⟩) :=
  ((disconnected_write_spec ⟨[7, 8, 0, 0], 2⟩ [9] (by decide)).1 (by decide)).1

/-- C5: `send_ping` against a Disconnected writer returns the `NotConnected`
error, writes nothing into the spill buffer and leaves the writer in the same
Disconnected state (the error path of `with_writer` — shutdown followed by
`transition_to_disconnected` — is a no-op there); no flusher notification. -/
theorem send_ping_disconnected_spec (db : DisconnectWriter) (rbs : Nat) :
    Outbound.send_ping rbs (Writer.Disconnected db)
      = (Except.error notConnectedError, Writer.Disconnected db, false) := rfl

/-- C6: `replace_writer` on a Disconnected writer.  If the replay of the spill
buffer into `new_writer` (write then flush) fails, the call returns that
error, leaves the current writer unchanged — still Disconnected with the same
buffered bytes — and the writer it drops is `new_writer` after the best-effort
shutdown; if the replay succeeds, the current writer becomes `new_writer`
(with the spill replayed into it) and the old Disconnected state is dropped. -/
theorem replace_writer_disconnected_spec (db : DisconnectWriter) (nw : Writer) :
    (∀ e nw', replaySpill nw db = (Except.error e, nw') →
      Outbound.replace_writer (Writer.Disconnected db) nw
        = (Except.error e, Writer.Disconnected db, (nw'.shutdown).2))
    ∧ (∀ nw', replaySpill nw db = (Except.ok (), nw') →
      Outbound.replace_writer (Writer.Disconnected db) nw
        = (Except.ok (), nw', Writer.Disconnected db)) := by
  constructor
  · intro e nw' h
    simp [Outbound.replace_writer, h]
  · intro nw' h
    simp [Outbound.replace_writer, h]

/-- C6 witness: a new socket whose first write faults; the spill state is kept
and the rejected socket is the shut-down writer. -/
theorem replace_writer_disconnected_spec_wit :
    Outbound.replace_writer (Writer.Disconnected (DisconnectWriter.new 2))
        (Writer.Tcp ⟨[true], [], [], false⟩)
      = (Except.error injectedError, Writer.Disconnected (DisconnectWriter.new 2),
         (Writer.shutdown (Writer.Tcp ⟨[], [], [], false⟩)).2) :=
  (replace_writer_disconnected_spec (DisconnectWriter.new 2)
    (Writer.Tcp ⟨[true], [], [], false⟩)).1 injectedError
    (Writer.Tcp ⟨[], [], [], false⟩) (by decide)

/-- When every queued receiver is still alive, the reconnect drain signals
`false` to every entry, in queue order, and leaves the queue empty. -/
lemma drainPongs_alive : ∀ (q : List PendingPong),
    (∀ p ∈ q, p.receiverAlive = true) →
    drainPongs q = some (q.map (fun p => (p.id, false)), [])
  | [], _ => rfl
  | p :: rest, halive => by
    have hp : p.receiverAlive = true := halive p (List.mem_cons_self p rest)
    have ih := drainPongs_alive rest (fun x hx => halive x (List.mem_cons_of_mem p hx))
    simp [drainPongs, PendingPong.signal, hp, ih]

/-- `process_pong` on a non-empty queue with a live head signals the head
`true` and keeps the tail. -/
lemma process_pong_cons (p : PendingPong) (rest : List PendingPong)
    (hp : p.receiverAlive = true) :
    process_pong (p :: rest) = some (some (p.id, true), rest) := by
  simp [process_pong, PendingPong.signal, hp]

/-- C7: at the drain step of `reconnect`, every `PendingPong` queued at that
moment is signaled `false` exactly once, in FIFO order, and the queue is left
empty; a PONG processed afterwards tolerates the empty queue, and any entry it
does signal comes from the later queue (signaled `true`), so none of the
drained entries is ever signaled again. -/
theorem pong_drain_spec (q : List PendingPong)
    (halive : ∀ p ∈ q, p.receiverAlive = true) :
    drainPongs q = some (q.map (fun p => (p.id, false)), [])
    ∧ process_pong [] = some (none, [])
    ∧ (∀ (later : List PendingPong) (sig : Nat × Bool) (rest : List PendingPong),
        process_pong later = some (some sig, rest) →
        sig.2 = true ∧ sig.1 ∈ later.map PendingPong.id)
    ∧ (∀ (later : List PendingPong) (sig : Nat × Bool) (rest : List PendingPong),
        (∀ p ∈ later, p.id ∉ q.map PendingPong.id) →
        process_pong later = some (some sig, rest) →
        sig.1 ∉ q.map PendingPong.id) := by
  have hpop : ∀ (later : List PendingPong) (sig : Nat × Bool) (rest : List PendingPong),
      process_pong later = some (some sig, rest) →
      sig.2 = true ∧ ∃ p ∈ later, sig = (p.id, true) := by
    intro later sig rest h
    match later with
    | [] => simp [process_pong] at h
    | p :: tail =>
      by_cases hp : p.receiverAlive = true
      · rw [process_pong_cons p tail hp] at h
        have h1 := Option.some.inj h
        have hsig := Option.some.inj (congrArg Prod.fst h1)
        exact ⟨hsig ▸ rfl, p, List.mem_cons_self p tail, hsig.symm⟩
      · simp [process_pong, PendingPong.signal, hp] at h
  refine ⟨drainPongs_alive q halive, rfl, ?_, ?_⟩
  · intro later sig rest h
    obtain ⟨h2, p, hmem, hsig⟩ := hpop later sig rest h
    exact ⟨h2, hsig ▸ List.mem_map_of_mem PendingPong.id hmem⟩
  · intro later sig rest hdisj h
    obtain ⟨-, p, hmem, hsig⟩ := hpop later sig rest h
    exact hsig ▸ hdisj p hmem

/-- C7 witness: two live pending pongs drained in FIFO order. -/
theorem pong_drain_spec_wit :
    drainPongs [⟨1, true⟩, ⟨2, true⟩] = some ([(1, false), (2, false)], []) :=
  (pong_drain_spec [⟨1, true⟩, ⟨2, true⟩] (by decide)).1

/-- C10: signaling a `PendingPong` is not total.  Both the reconnect drain and
`process_pong` `unwrap` the channel send (modelled by returning `none`, the
thread panic): with a dropped receiver in the queue each of them panics, and
when every queued receiver is alive both complete normally. -/
theorem pong_signal_partiality :
    drainPongs [⟨0, false⟩] = none
    ∧ process_pong [⟨1, false⟩] = none
    ∧ (∀ q : List PendingPong, (∀ p ∈ q, p.receiverAlive = true) →
        (drainPongs q).isSome = true)
    ∧ (∀ q : List PendingPong, (∀ p ∈ q, p.receiverAlive = true) →
        (process_pong q).isSome = true) := by
  refine ⟨rfl, rfl, ?_, ?_⟩
  · intro q halive
    rw [drainPongs_alive q halive]
    rfl
  · intro q halive
    match q with
    | [] => rfl
    | p :: rest =>
      rw [process_pong_cons p rest (halive p (List.mem_cons_self p rest))]
      rfl

/-- C10 witness: a queue of live receivers drains without a panic. -/
theorem pong_signal_partiality_wit :
    (drainPongs [⟨3, true⟩]).isSome = true :=
  pong_signal_partiality.2.2.1 [⟨3, true⟩] (by decide)

/-- C9: a successful `send_pub_msg` writes to the writer exactly the frame
`PUB <subj> <reply> <len>\r\n<bytes>\r\n` when a reply is given and
`PUB <subj> <len>\r\n<bytes>\r\n` otherwise (`<len>` the decimal payload
length), then notifies the flusher (the final `true`) without flushing in
place (`sent` is untouched; the frame stays in the socket buffer). -/
theorem send_pub_msg_frame_spec (rbs : Nat) (subj r : String) (msgb : List Byte)
    (bw : LiveStream) (hf : bw.faults = []) :
    Outbound.send_pub_msg rbs (Writer.Tcp bw) subj (some r) msgb
      = (Except.ok (), Writer.Tcp { bw with wbuf := bw.wbuf ++
          (strBytes ("PUB " ++ subj ++ " " ++ r ++ " " ++ toString msgb.length ++ "\r\n")
            ++ msgb ++ strBytes "\r\n") }, true)
    ∧ Outbound.send_pub_msg rbs (Writer.Tcp bw) subj none msgb
      = (Except.ok (), Writer.Tcp { bw with wbuf := bw.wbuf ++
          (strBytes ("PUB " ++ subj ++ " " ++ toString msgb.length ++ "\r\n")
            ++ msgb ++ strBytes "\r\n") }, true) := by
  obtain ⟨faults, wbuf, sent, sd⟩ := bw
  cases hf
  constructor <;>
    simp [Outbound.send_pub_msg, Outbound.with_writer, pubHeader, Writer.write_all,
      Writer.write, LiveStream.injectFailure, List.append_assoc]

/-- Dropping from a replicated list leaves a shorter replicated list. -/
lemma drop_replicate (a : Byte) : ∀ (n m : Nat),
    List.drop n (List.replicate m a) = List.replicate (m - n) a
  | 0, _ => by simp
  | _ + 1, 0 => by simp
  | n + 1, m + 1 => by
    rw [List.replicate_succ, List.drop_succ_cons, Nat.succ_sub_succ]
    exact drop_replicate a n m

/-- Invariant of writes into the spill buffer: starting from a buffer of
capacity `cap` whose first `acc.length` bytes are `acc` (the rest still the
initial zeros), a sequence of writes fitting in the remaining space is fully
accepted and leaves the buffer holding `acc ++ ws.flatten`. -/
lemma writeSeq_spill (cap : Nat) : ∀ (ws : List (List Byte)) (acc : List Byte),
    acc.length + (ws.map List.length).sum ≤ cap →
    writeSeqOk (Writer.Disconnected
      ⟨acc ++ List.replicate (cap - acc.length) 0, acc.length⟩) ws = true
    ∧ writeSeq (Writer.Disconnected
        ⟨acc ++ List.replicate (cap - acc.length) 0, acc.length⟩) ws
      = Writer.Disconnected
          ⟨acc ++ ws.flatten ++ List.replicate (cap - acc.length - (ws.map List.length).sum) 0,
           acc.length + (ws.map List.length).sum⟩
  | [], acc, _ => by simp [writeSeq, writeSeqOk]
  | d :: rest, acc, h => by
    have hsum : acc.length + (d.length + (rest.map List.length).sum) ≤ cap := by
      simpa using h
    have hbuflen : (acc ++ List.replicate (cap - acc.length) (0 : Byte)).length = cap := by
      simp
      omega
    have htake : (acc ++ List.replicate (cap - acc.length) (0 : Byte)).take acc.length
        = acc := List.take_left' rfl
    have hdrop : (acc ++ List.replicate (cap - acc.length) (0 : Byte)).drop
          (acc.length + d.length)
        = List.replicate (cap - acc.length - d.length) 0 := by
      rw [← List.drop_drop, List.drop_left, drop_replicate]
    have hwrite : Writer.write (Writer.Disconnected
          ⟨acc ++ List.replicate (cap - acc.length) 0, acc.length⟩) d
        = (Except.ok d.length, Writer.Disconnected
            ⟨(acc ++ d) ++ List.replicate (cap - (acc ++ d).length) 0, (acc ++ d).length⟩) := by
      simp only [Writer.write]
      rw [if_neg (by rw [hbuflen]; omega), htake, hdrop]
      have hcnt : cap - acc.length - d.length = cap - (acc ++ d).length := by
        simp
        omega
      simp [hcnt, List.append_assoc]
    have ih := writeSeq_spill cap rest (acc ++ d) (by simp; omega)
    constructor
    · simp only [writeSeqOk, hwrite]
      exact ih.1
    · have hstep : writeSeq (Writer.Disconnected
            ⟨acc ++ List.replicate (cap - acc.length) 0, acc.length⟩) (d :: rest)
          = writeSeq (Writer.Disconnected
              ⟨(acc ++ d) ++ List.replicate (cap - (acc ++ d).length) 0,
               (acc ++ d).length⟩) rest := by
        simp only [writeSeq, List.foldl_cons, hwrite]
      rw [hstep, ih.2]
      have hcnt : cap - (acc ++ d).length - (rest.map List.length).sum
          = cap - acc.length - ((d :: rest).map List.length).sum := by
        simp
        omega
      have hlen : (acc ++ d).length + (rest.map List.length).sum
          = acc.length + ((d :: rest).map List.length).sum := by
        simp
        omega
      rw [hcnt, hlen]
      simp [List.append_assoc]

/-- A single write never removes bytes already on the socket. -/
lemma sentBytes_write_mono (w : Writer) (d : List Byte) :
    ∃ r, Writer.sentBytes ((Writer.write w d).2) = Writer.sentBytes w ++ r := by
  cases w with
  | Tcp bw =>
    refine ⟨[], ?_⟩
    cases hf : bw.faults with
    | nil => simp [Writer.write, LiveStream.injectFailure, hf, Writer.sentBytes]
    | cons f rest =>
      cases f <;> simp [Writer.write, LiveStream.injectFailure, hf, Writer.sentBytes]
  | Tls bw =>
    refine ⟨[], ?_⟩
    cases hf : bw.faults with
    | nil => simp [Writer.write, LiveStream.injectFailure, hf, Writer.sentBytes]
    | cons f rest =>
      cases f <;> simp [Writer.write, LiveStream.injectFailure, hf, Writer.sentBytes]
  | Disconnected db =>
    refine ⟨[], ?_⟩
    simp only [Writer.write]
    split <;> simp [Writer.sentBytes]
  | Closed => exact ⟨[], rfl⟩

/-- A single flush only appends to the bytes already on the socket. -/
lemma sentBytes_flush_mono (w : Writer) :
    ∃ r, Writer.sentBytes ((Writer.flush w).2) = Writer.sentBytes w ++ r := by
  cases w with
  | Tcp bw =>
    cases hf : bw.faults with
    | nil =>
      exact ⟨bw.wbuf, by simp [Writer.flush, LiveStream.injectFailure, hf, Writer.sentBytes]⟩
    | cons f rest =>
      cases f
      · exact ⟨bw.wbuf, by
          simp [Writer.flush, LiveStream.injectFailure, hf, Writer.sentBytes]⟩
      · exact ⟨[], by simp [Writer.flush, LiveStream.injectFailure, hf, Writer.sentBytes]⟩
  | Tls bw =>
    cases hf : bw.faults with
    | nil =>
      exact ⟨bw.wbuf, by simp [Writer.flush, LiveStream.injectFailure, hf, Writer.sentBytes]⟩
    | cons f rest =>
      cases f
      · exact ⟨bw.wbuf, by
          simp [Writer.flush, LiveStream.injectFailure, hf, Writer.sentBytes]⟩
      · exact ⟨[], by simp [Writer.flush, LiveStream.injectFailure, hf, Writer.sentBytes]⟩
  | Disconnected db => exact ⟨[], rfl⟩
  | Closed => exact ⟨[], rfl⟩

/-- Bytes on the socket are append-only across any sequence of later writer
operations. -/
lemma sentBytes_applyOps_mono : ∀ (ops : List WOp) (w : Writer),
    ∃ r, Writer.sentBytes (applyOps w ops) = Writer.sentBytes w ++ r
  | [], w => ⟨[], by simp [applyOps]⟩
  | WOp.write d :: rest, w => by
    obtain ⟨r₁, h₁⟩ := sentBytes_write_mono w d
    obtain ⟨r₂, h₂⟩ := sentBytes_applyOps_mono rest (Writer.write w d).2
    exact ⟨r₁ ++ r₂, by simp [applyOps, h₂, h₁, List.append_assoc]⟩
  | WOp.flush :: rest, w => by
    obtain ⟨r₁, h₁⟩ := sentBytes_flush_mono w
    obtain ⟨r₂, h₂⟩ := sentBytes_applyOps_mono rest (Writer.flush w).2
    exact ⟨r₁ ++ r₂, by simp [applyOps, h₂, h₁, List.append_assoc]⟩

/-- C4: every sequence of writes to a fresh Disconnected writer whose
cumulative length fits the spill capacity is fully accepted, and a subsequent
successful `replace_writer` onto a fresh live socket puts exactly the
concatenation of those bytes, in order, on the socket (written then flushed);
whatever operations run on the installed writer afterwards, the socket bytes
keep that concatenation as a prefix, so the spilled bytes precede any bytes
written after `replace_writer` returns. -/
theorem spill_replay_spec (cap : Nat) (ws : List (List Byte)) (bw : LiveStream)
    (hsum : (ws.map List.length).sum ≤ cap) (hf : bw.faults = [])
    (hw : bw.wbuf = []) :
    writeSeqOk (Writer.Disconnected (DisconnectWriter.new cap)) ws = true
    ∧ Outbound.replace_writer
        (writeSeq (Writer.Disconnected (DisconnectWriter.new cap)) ws) (Writer.Tcp bw)
      = (Except.ok (),
         Writer.Tcp { bw with wbuf := [], sent := bw.sent ++ ws.flatten },
         writeSeq (Writer.Disconnected (DisconnectWriter.new cap)) ws)
    ∧ ∀ ops, ∃ rest,
        Writer.sentBytes
            (applyOps (Writer.Tcp { bw with wbuf := [], sent := bw.sent ++ ws.flatten }) ops)
          = bw.sent ++ ws.flatten ++ rest := by
  have hstart : Writer.Disconnected (DisconnectWriter.new cap)
      = Writer.Disconnected ⟨([] : List Byte) ++ List.replicate (cap - ([] : List Byte).length) 0,
          ([] : List Byte).length⟩ := by
    simp [DisconnectWriter.new]
  have hspill := writeSeq_spill cap ws [] (by simpa using hsum)
  refine ⟨by rw [hstart]; exact hspill.1, ?_, ?_⟩
  · rw [hstart, hspill.2]
    have htake : ((([] : List Byte) ++ ws.flatten
          ++ List.replicate (cap - ([] : List Byte).length - (ws.map List.length).sum) 0).take
            (([] : List Byte).length + (ws.map List.length).sum)) = ws.flatten := by
      simp only [List.nil_append, List.length_nil, Nat.zero_add, Nat.sub_zero]
      exact List.take_left' (by simp)
    obtain ⟨f, wbuf, sent, sd⟩ := bw
    cases hf
    cases hw
    simp [Outbound.replace_writer, replaySpill, Writer.write_all, Writer.write,
      Writer.flush, LiveStream.injectFailure, htake, hstart, hspill.2]
  · intro ops
    obtain ⟨r, hr⟩ := sentBytes_applyOps_mono ops
      (Writer.Tcp { bw with wbuf := [], sent := bw.sent ++ ws.flatten })
    exact ⟨r, by simpa [Writer.sentBytes, List.append_assoc] using hr⟩

/-- C4 witness: two spilled writes of total length three replayed onto a
fresh socket. -/
theorem spill_replay_spec_wit :
    Outbound.replace_writer
        (writeSeq (Writer.Disconnected (DisconnectWriter.new 4)) [[1, 2], [3]])
        (Writer.Tcp ⟨[], [], [], false⟩)
      = (Except.ok (), Writer.Tcp ⟨[], [], [1, 2, 3], false⟩,
         writeSeq (Writer.Disconnected (DisconnectWriter.new 4)) [[1, 2], [3]]) :=
  (spill_replay_spec 4 [[1, 2], [3]] ⟨[], [], [], false⟩ (by decide) rfl rfl).2.1

/-- When no attempt ever succeeds, a candidate pass reports no success. -/
lemma runPass_no_success (outcome : Nat → AttemptOutcome)
    (h : ∀ j, outcome j ≠ AttemptOutcome.success) : ∀ (order : List Nat)
    (servers : List Server) (k : Nat),
    (runPass outcome order servers k).2.2 = false
  | [], _, _ => rfl
  | i :: rest, servers, k => by
    cases ho : outcome k with
    | success => exact absurd ho (h k)
    | dialFail =>
      simp only [runPass, ho]
      exact runPass_no_success outcome h rest (bumpAt servers i) (k + 1)
    | replaceFail =>
      simp only [runPass, ho]
      exact runPass_no_success outcome h rest (bumpAt servers i) (k + 1)
    | resendFail =>
      simp only [runPass, ho]
      exact runPass_no_success outcome h rest servers (k + 1)

/-- One iteration of the reconnect loop that neither observes the shutdown
flag, nor succeeds, nor hits the bounded-exhaustion exit, recurses into the
next iteration. -/
lemma reconnectLoop_step (maxR : Option Nat) (env : ReconnectEnv) (fuel : Nat)
    (servers servers' : List Server) (k k' iter : Nat)
    (hsd : env.shuttingDown iter = false)
    (hrp : runPass env.outcome (env.shuffle iter (candFilter maxR servers)) servers k
      = (servers', k', false))
    (hcont : ((env.shuffle iter (candFilter maxR servers)).isEmpty && maxR.isSome) = false) :
    reconnectLoop maxR env (fuel + 1) servers k iter
      = reconnectLoop maxR env fuel servers' k' (iter + 1) := by
  simp only [reconnectLoop, hsd]
  rw [hrp]
  simp [hcont]

/-- C8: (i) with bounded `max_reconnects`, an empty candidate list makes the
loop return failure at once; (ii) with `max_reconnects = None` no index of
the server list is filtered out of the candidate list; (iii) with
`max_reconnects = None` and no attempt ever succeeding, the loop can only
return failure, and only after observing the `shutting_down` flag set at some
iteration; (iv) conversely, once `shutting_down` is set at some iteration the
loop does return failure given enough fuel. -/
theorem reconnect_loop_spec (env : ReconnectEnv) :
    (∀ (n : Nat) (servers : List Server) (k iter fuel : Nat),
      env.shuttingDown iter = false →
      env.shuffle iter [] = [] →
      candFilter (some n) servers = [] →
      reconnectLoop (some n) env (fuel + 1) servers k iter = some (false, servers))
    ∧ (∀ servers : List Server, candFilter none servers = List.range servers.length)
    ∧ (∀ (fuel : Nat) (servers : List Server) (k iter : Nat) (b : Bool)
        (srv : List Server),
      (∀ j, env.outcome j ≠ AttemptOutcome.success) →
      reconnectLoop none env fuel servers k iter = some (b, srv) →
      b = false ∧ ∃ i, iter ≤ i ∧ env.shuttingDown i = true)
    ∧ (∀ (m iter : Nat) (servers : List Server) (k : Nat),
      (∀ j, env.outcome j ≠ AttemptOutcome.success) →
      env.shuttingDown (iter + m) = true →
      ∃ fuel srv, reconnectLoop none env fuel servers k iter = some (false, srv)) := by
  refine ⟨?_, ?_, ?_, ?_⟩
  · intro n servers k iter fuel hsd hsh hcf
    simp [reconnectLoop, hsd, hcf, hsh, runPass]
  · intro servers
    rw [candFilter]
    exact List.filter_eq_self.mpr (fun a _ => rfl)
  · intro fuel
    induction fuel with
    | zero =>
      intro servers k iter b srv hns hrun
      simp [reconnectLoop] at hrun
    | succ fuel ih =>
      intro servers k iter b srv hns hrun
      cases hsd : env.shuttingDown iter with
      | true =>
        simp [reconnectLoop, hsd] at hrun
        exact ⟨hrun.1, iter, Nat.le_refl iter, hsd⟩
      | false =>
        rcases hrp : runPass env.outcome (env.shuffle iter (candFilter none servers))
          servers k with ⟨servers', k', succ⟩
        have hsucc : succ = false := by
          have hx := runPass_no_success env.outcome hns
            (env.shuffle iter (candFilter none servers)) servers k
          rw [hrp] at hx
          exact hx
        subst hsucc
        rw [reconnectLoop_step none env fuel servers servers' k k' iter hsd hrp
          (by simp)] at hrun
        obtain ⟨hb, i, hi, hsdi⟩ := ih servers' k' (iter + 1) b srv hns hrun
        exact ⟨hb, i, by omega, hsdi⟩
  · intro m
    induction m with
    | zero =>
      intro iter servers k hns hsd
      have hsd' : env.shuttingDown iter = true := by simpa using hsd
      exact ⟨1, servers, by simp [reconnectLoop, hsd']⟩
    | succ m ih =>
      intro iter servers k hns hsd
      cases hsd0 : env.shuttingDown iter with
      | true => exact ⟨1, servers, by simp [reconnectLoop, hsd0]⟩
      | false =>
        rcases hrp : runPass env.outcome (env.shuffle iter (candFilter none servers))
          servers k with ⟨servers', k', succ⟩
        have hsucc : succ = false := by
          have hx := runPass_no_success env.outcome hns
            (env.shuffle iter (candFilter none servers)) servers k
          rw [hrp] at hx
          exact hx
        subst hsucc
        have hsd' : env.shuttingDown (iter + 1 + m) = true := by
          have harith : iter + (m + 1) = iter + 1 + m := by omega
          rwa [harith] at hsd
        obtain ⟨fuel, srv, hloop⟩ := ih (iter + 1) servers' k' hns hsd'
        refine ⟨fuel + 1, srv, ?_⟩
        rw [reconnectLoop_step none env fuel servers servers' k k' iter hsd0 hrp
          (by simp)]
        exact hloop

/-- C8 witness: bounded retries with the one configured server already at its
limit — the candidate list is empty and the loop fails at once. -/
theorem reconnect_loop_spec_wit :
    reconnectLoop (some 0) ⟨fun _ => false, fun _ l => l, fun _ => AttemptOutcome.dialFail⟩
      1 [⟨0, 0⟩] 0 0 = some (false, [⟨0, 0⟩]) :=
  (reconnect_loop_spec ⟨fun _ => false, fun _ l => l, fun _ => AttemptOutcome.dialFail⟩).1
    0 [⟨0, 0⟩] 0 0 0 rfl rfl (by decide)

/-- C9 witness: publishing two bytes on subject `x` without a reply. -/
theorem send_pub_msg_frame_spec_wit :
    Outbound.send_pub_msg 0 (Writer.Tcp ⟨[], [], [], false⟩) "x" none [104, 105]
      = (Except.ok (), Writer.Tcp ⟨[],
          strBytes "PUB x 2\r\n" ++ ([104, 105] ++ strBytes "\r\n"), [], false⟩, true) :=
  (send_pub_msg_frame_spec 0 "x" "" [104, 105] ⟨[], [], [], false⟩ rfl).2

end Nats
